import Mathlib

/-!
Verification of the katax-service-manager core against its specification.

The definitions below are shallow embeddings of the TypeScript source:
* `Katax.Cache` models `src/services/cache.service.ts` (the `clear`
  scan/delete loop, the production guard, and the batched
  `delMany`/`mget`/`mset`).
* `Katax.Registry` models the `Katax.database` get-or-create logic of
  `src/katax.ts` (resolved map, pending-creation map, settle steps).
* `Katax.Retry` models `RegistryService.fetchWithRetry` of
  `src/services/registry.service.ts`.
* `Katax.Health` models `HealthService.check` / `Katax.healthCheck`.
* `Katax.Shutdown` models `LifecycleService.shutdown` / `Katax.shutdown`.
* `Katax.DbConn` models `DatabaseService.close`.

Asynchronous methods are embedded at the granularity of their `await`
points: a stretch of code with no `await` is a single atomic step, which
is exactly the interleaving granularity of the single-threaded
cooperative (Node.js) execution model the source runs under.
-/

namespace Katax

/-- A backend (Redis) command as issued by the cache service: either a
`SCAN cursor MATCH pattern COUNT n` or a batched `DEL k1 k2 ...`. -/
inductive RedisCmd where
  | scan (cursor : String) (pattern : String) (count : Nat)
  | del (keys : List String)
  deriving DecidableEq, Repr

namespace Cache

/-- One page of a SCAN response: the next cursor and the matched keys.
A script is the list of pages the backend returns to successive SCANs. -/
abbrev ScanPage := String × List String

/-- The body of `CacheService.clear`'s do/while loop
(`src/services/cache.service.ts` lines 262-282), run against a response
script.  Each iteration issues one SCAN with the current cursor; if the
returned key page is non-empty it issues one batched DEL for exactly those
keys and adds their count; the loop ends exactly when the returned next
cursor is `"0"`.  An exhausted script is answered like the code's
`result[0] ?? '0'` / `result[1] ?? []` defaults, i.e. `("0", [])`. -/
def clearGo (pattern : String) : String → List ScanPage → Nat × List RedisCmd
  | cursor, [] => (0, [RedisCmd.scan cursor pattern 500])
  | cursor, (next, keys) :: rest =>
    let here : List RedisCmd :=
      if keys.isEmpty then [RedisCmd.scan cursor pattern 500]
      else [RedisCmd.scan cursor pattern 500, RedisCmd.del keys]
    if next = "0" then
      (keys.length, here)
    else
      let tail := clearGo pattern next rest
      (keys.length + tail.1, here ++ tail.2)

/-- `String.prototype.toLowerCase` on the characters of the string (the
environment values compared here are ASCII). -/
def lowerStr (s : String) : String :=
  String.mk (s.data.map Char.toLower)

/-- Whether `process.env.NODE_ENV` flags production, as computed at
`src/services/cache.service.ts` line 257:
`process.env['NODE_ENV']?.toLowerCase() === 'production'`. -/
def isProdEnv (nodeEnv : Option String) : Bool :=
  match nodeEnv with
  | some e => lowerStr e = "production"
  | none => false

/-- `CacheService.clear(pattern)`: the production wildcard guard followed
by the cursor scan loop.  Returns the outcome (deleted count or the error
message, the guard error being wrapped by the outer catch like every other
error of the method) together with the list of backend commands issued. -/
def clear (nodeEnv : Option String) (pattern : String) (script : List ScanPage) :
    Except String Nat × List RedisCmd :=
  if isProdEnv nodeEnv && pattern == "*" then
    (.error "Cache clear failed: cache.clear(\"*\") is disabled in production for safety", [])
  else
    let run := clearGo pattern "0" script
    (.ok run.1, run.2)

/-- `CacheService.delMany(keys)` (lines 83-93): an empty key list returns
before any backend call; otherwise one batched DEL is issued and a backend
failure is rethrown wrapped. -/
def delMany (keys : List String) (backend : Except String Unit) :
    Except String Unit × List RedisCmd :=
  if keys.length = 0 then (.ok (), [])
  else
    match backend with
    | .ok _ => (.ok (), [RedisCmd.del keys])
    | .error e => (.error ("Cache delMany failed: " ++ e), [RedisCmd.del keys])

/-- An MGET or MSET backend command, for the batched read/write paths. -/
inductive BatchCmd where
  | mget (keys : List String)
  | mset (args : List String)
  deriving DecidableEq, Repr

/-- `CacheService.mget(keys)` (lines 208-219): an empty key list returns
`[]` before any backend call; otherwise one MGET is issued. -/
def mget (keys : List String) (backend : Except String (List (Option String))) :
    Except String (List (Option String)) × List BatchCmd :=
  if keys.length = 0 then (.ok [], [])
  else
    match backend with
    | .ok vs => (.ok vs, [BatchCmd.mget keys])
    | .error e => (.error ("Cache mget failed: " ++ e), [BatchCmd.mget keys])

/-- `CacheService.mset(entries)` (lines 231-245): an empty entry list
returns before any backend call; otherwise one MSET with the flattened
key/serialized-value arguments is issued. -/
def mset (entries : List (String × String)) (backend : Except String Unit) :
    Except String Unit × List BatchCmd :=
  if entries.length = 0 then (.ok (), [])
  else
    let args := entries.foldr (fun kv acc => kv.1 :: kv.2 :: acc) []
    match backend with
    | .ok _ => (.ok (), [BatchCmd.mset args])
    | .error e => (.error ("Cache mset failed: " ++ e), [BatchCmd.mset args])

end Cache

namespace Registry

/-- The registry state of `Katax` (`src/katax.ts` lines 56-60): the
resolved database map `_databases` and the pending-creation map
`_pendingDatabases`, as association lists from name to an opaque handle
id (resolved) or promise id (pending). -/
structure State where
  databases : List (String × Nat)
  pendingDatabases : List (String × Nat)
  deriving DecidableEq, Repr

/-- `Map.delete name`. -/
def eraseKey (name : String) (l : List (String × Nat)) : List (String × Nat) :=
  l.filter (fun kv => !(kv.1 == name))

/-- `Map.set name v`. -/
def setKey (name : String) (v : Nat) (l : List (String × Nat)) : List (String × Nat) :=
  (name, v) :: eraseKey name l

/-- What a `Katax.database(config)` call observes during its synchronous
prefix: an already-resolved handle, an in-flight promise it joins, or the
fresh promise it registers itself. -/
inductive EntryRes where
  | existing (h : Nat)
  | joined (p : Nat)
  | started (p : Nat)
  deriving DecidableEq, Repr

/-- The synchronous prefix of `Katax.database` (`src/katax.ts` lines
228-245): check the resolved map, then the pending map, else invoke the
construction and register the fresh promise in the pending map.  There is
no `await` anywhere in this stretch, so it is one atomic step.  The third
component counts underlying construction (`createDatabase`) invocations. -/
def dbEntry (s : State) (name : String) (fresh : Nat) : State × EntryRes × Nat :=
  match s.databases.lookup name with
  | some h => (s, .existing h, 0)
  | none =>
    match s.pendingDatabases.lookup name with
    | some p => (s, .joined p, 0)
    | none =>
      ({ s with pendingDatabases := setKey name fresh s.pendingDatabases },
       .started fresh, 1)

/-- The continuation of the initiating caller once its construction
promise settles successfully with handle `h` (`src/katax.ts` lines
248-251 and the `finally` at line 268): store the handle in the resolved
map and delete the pending entry.  No `await` separates the two
mutations, so they form one atomic step. -/
def dbSettleOk (s : State) (name : String) (h : Nat) : State :=
  { databases := setKey name h s.databases,
    pendingDatabases := eraseKey name s.pendingDatabases }

/-- The continuation of the initiating caller when its construction
promise rejects (`src/katax.ts` lines 252-269): the resolved map is
untouched and the `finally` deletes the pending entry. -/
def dbSettleErr (s : State) (name : String) : State :=
  { s with pendingDatabases := eraseKey name s.pendingDatabases }

/-- The value a failed `Katax.database(config)` call produces
(`src/katax.ts` lines 252-266): `null` when `config.required === false`,
otherwise the wrapped initialization error. -/
def dbFailureResult (name : String) (msg : String) (required : Option Bool) :
    Except String (Option Nat) :=
  if required == some false then .ok none
  else .error ("Database '" ++ name ++ "' initialization failed: " ++ msg)

/-- `k` concurrent callers issuing `database(config)` for the same name
before any construction resolves: under cooperative scheduling their
synchronous prefixes run one after the other.  Returns the final state,
each caller's observation, and the total construction count. -/
def runEntries (s : State) (name : String) (fresh : Nat) : Nat → State × List EntryRes × Nat
  | 0 => (s, [], 0)
  | k + 1 =>
    let step := dbEntry s name fresh
    let rest := runEntries step.1 name fresh k
    (rest.1, step.2.1 :: rest.2.1, step.2.2 + rest.2.2)

/-- The spec's map invariant: no name is simultaneously in the resolved
map and in the pending-creation map. -/
def inv (s : State) : Prop :=
  ∀ n, s.databases.lookup n = none ∨ s.pendingDatabases.lookup n = none

end Registry

namespace Retry

/-- The retry-relevant slice of `RegistryConfig`
(`src/services/registry.service.ts`): each field is optional, matching
the `??` defaults applied inside `fetchWithRetry`. -/
structure Config where
  retryAttempts : Option Int := none
  retryBaseDelayMs : Option Int := none
  requestTimeoutMs : Option Int := none
  deriving DecidableEq, Repr

/-- `const attempts = Math.max(0, this.config.retryAttempts ?? 2) + 1`
(line 123). -/
def attemptsOf (cfg : Config) : Nat :=
  (max 0 (cfg.retryAttempts.getD 2)).toNat + 1

/-- `const baseDelay = Math.max(0, this.config.retryBaseDelayMs ?? 300)`
(line 124). -/
def baseDelayOf (cfg : Config) : Int :=
  max 0 (cfg.retryBaseDelayMs.getD 300)

/-- `const timeoutMs = Math.max(1000, this.config.requestTimeoutMs ?? 5000)`
(line 125). -/
def timeoutOf (cfg : Config) : Int :=
  max 1000 (cfg.requestTimeoutMs.getD 5000)

/-- Observable trace of one `fetchWithRetry` call: the final outcome, how
many attempts ran, the backoff delays slept between attempts (in order),
and the cancellation timeout armed for each attempt (in order). -/
structure FetchTrace (R : Type) where
  result : Except String R
  attemptsMade : Nat
  delays : List Int
  timeouts : List Int
  deriving Repr

/-- The attempt loop of `fetchWithRetry` (lines 129-158).  `tr a` is the
outcome of the `fetch` on attempt `a` (non-2xx responses are thrown, so
they appear as `.error`); `jit a` is the `Math.floor(Math.random() * 100)`
jitter drawn before retrying attempt `a + 1`, always in `[0, 100)`.
`attempt` is the 1-based loop counter and `rem` counts this attempt plus
the attempts still allowed after it; on the last allowed attempt a failure
is rethrown as the last error. -/
def retryGo {R : Type} (tr : Nat → Except String R) (jit : Nat → Fin 100)
    (base timeoutMs : Int) : Nat → Nat → FetchTrace R
  | _, 0 => ⟨.error "", 0, [], []⟩
  | attempt, rem + 1 =>
    match tr attempt with
    | .ok r => ⟨.ok r, 1, [], [timeoutMs]⟩
    | .error e =>
      if rem = 0 then ⟨.error e, 1, [], [timeoutMs]⟩
      else
        let d := base * 2 ^ (attempt - 1) + ((jit attempt).val : Int)
        let rest := retryGo tr jit base timeoutMs (attempt + 1) rem
        ⟨rest.result, rest.attemptsMade + 1, d :: rest.delays, timeoutMs :: rest.timeouts⟩

/-- `RegistryService.fetchWithRetry` (lines 122-159). -/
def fetchWithRetry {R : Type} (cfg : Config) (tr : Nat → Except String R)
    (jit : Nat → Fin 100) : FetchTrace R :=
  retryGo tr jit (baseDelayOf cfg) (timeoutOf cfg) 1 (attemptsOf cfg)

/-- A transport that fails on attempts 1 and 2 and succeeds on attempt 3. -/
def trFailTwice : Nat → Except String String :=
  fun a => if a ≤ 2 then .error (toString a) else .ok "registered"

/-- The zero-jitter random oracle, for concrete runs. -/
def jitZero : Nat → Fin 100 := fun _ => ⟨0, by decide⟩

end Retry

namespace Health

/-- The tri-state aggregate of `HealthCheckResult.status`. -/
inductive HStatus where
  | healthy
  | degraded
  | unhealthy
  deriving DecidableEq, Repr

/-- `HealthService.check` / `Katax.healthCheck` (`src/katax.ts` lines
638-708), as a function of the per-resource probe outcomes: `dbs` and
`sockets` carry each resource's probe boolean (a throwing probe is
recorded `false`), `cronOk` is whether the cron-job enumeration
succeeded.  The status starts `healthy`, each failing probe and a failing
cron check set it to `degraded`, the redundant any-unhealthy re-check
sets `degraded` again, and finally a non-empty database map with no
healthy database overrides the status to `unhealthy`. -/
def check (dbs sockets : List (String × Bool)) (cronOk : Bool) : HStatus :=
  let dbVals := dbs.map Prod.snd
  let sockVals := sockets.map Prod.snd
  let s1 := if dbVals.any (fun b => !b) then HStatus.degraded else HStatus.healthy
  let s2 := if sockVals.any (fun b => !b) then HStatus.degraded else s1
  let s3 := if !cronOk then HStatus.degraded else s2
  let s4 := if !dbVals.all id || !sockVals.all id || !cronOk then HStatus.degraded else s3
  if decide (0 < dbs.length) && !dbVals.any id then HStatus.unhealthy else s4

end Health

namespace Shutdown

/-- Observable outcome of `LifecycleService.shutdown` / `Katax.shutdown`
(`src/unnamed/part_004` lines 11-107, `src/katax.ts` lines 714-792):
which closes were attempted, the aggregated `{service, error}` entries,
the maps afterwards, and whether the cron stop ran.  The method never
rethrows a close failure (`Promise.allSettled`), which is why it returns
a report rather than an error. -/
structure Report where
  dbCloseAttempts : List String
  socketCloseAttempts : List String
  errors : List (String × String)
  databasesAfter : List (String × Except String Unit)
  socketsAfter : List (String × Except String Unit)
  cronStopAttempted : Bool
  deriving Repr

/-- The error entries collected from one `Promise.allSettled` fan-out:
one `{service, error}` entry per rejected close, in order. -/
def closeErrors (service : String) (rs : List (String × Except String Unit)) :
    List (String × String) :=
  rs.filterMap (fun nr =>
    match nr.2 with
    | .ok _ => none
    | .error e => some (service, e))

/-- Whether a resource's close rejects. -/
def isCloseFailure (nr : String × Except String Unit) : Bool :=
  match nr.2 with
  | .ok _ => false
  | .error _ => true

/-- The shutdown fan-out: every database close is attempted (allSettled),
`_databases.clear()` runs unconditionally, then the same for sockets,
then `cronService.stopAll()` inside its own try/catch. -/
def run (dbs sockets : List (String × Except String Unit)) (cronStop : Except String Unit) :
    Report :=
  let dbAttempts := dbs.map Prod.fst
  let dbErrs := closeErrors "database" dbs
  let dbsAfter : List (String × Except String Unit) := []
  let sockAttempts := sockets.map Prod.fst
  let sockErrs := closeErrors "websocket" sockets
  let socksAfter : List (String × Except String Unit) := []
  let cronErrs : List (String × String) :=
    match cronStop with
    | .ok _ => []
    | .error e => [("cron", e)]
  ⟨dbAttempts, sockAttempts, dbErrs ++ sockErrs ++ cronErrs, dbsAfter, socksAfter, true⟩

end Shutdown

namespace DbConn

/-- The lifecycle-relevant state of a `DatabaseService`
(`src/services/database.service.ts`): the `initialized` flag and the
opaque `pool` handle. -/
structure State where
  initialized : Bool
  pool : Option Nat
  deriving DecidableEq, Repr

/-- `DatabaseService.close` (`src/services/database.service.ts` lines
314-331): if the service is not initialized or has no pool it returns
immediately; otherwise it invokes the adapter close once — on success it
drops the initialized flag and the pool, on failure it rethrows wrapped
and leaves the state untouched.  The last component counts underlying
close invocations. -/
def close (s : State) (adapterClose : Except String Unit) :
    Except String Unit × State × Nat :=
  if !s.initialized || s.pool == none then (.ok (), s, 0)
  else
    match adapterClose with
    | .ok _ => (.ok (), ⟨false, none⟩, 1)
    | .error e => (.error ("Failed to close database: " ++ e), s, 1)

end DbConn

end Katax

namespace Katax.Registry

theorem lookup_eraseKey_self (name : String) (l : List (String × Nat)) :
    (eraseKey name l).lookup name = none := by
  induction l with
  | nil => rfl
  | cons kv t ih =>
    obtain ⟨a, b⟩ := kv
    by_cases h : a = name
    · subst h
      simpa [eraseKey, List.filter_cons] using ih
    · have hb : (name == a) = false := beq_eq_false_iff_ne.mpr (fun e => h e.symm)
      have ha : (a == name) = false := beq_eq_false_iff_ne.mpr h
      simpa [eraseKey, List.filter_cons, ha, List.lookup, hb] using ih

theorem lookup_eraseKey_ne (name m : String) (l : List (String × Nat))
    (hne : m ≠ name) : (eraseKey name l).lookup m = l.lookup m := by
  induction l with
  | nil => rfl
  | cons kv t ih =>
    obtain ⟨a, b⟩ := kv
    by_cases h : a = name
    · subst h
      have hm : (m == a) = false := beq_eq_false_iff_ne.mpr hne
      simpa [eraseKey, List.filter_cons, List.lookup, hm] using ih
    · have ha : (a == name) = false := beq_eq_false_iff_ne.mpr h
      by_cases hma : m = a
      · subst hma
        simp [eraseKey, List.filter_cons, ha, List.lookup]
      · have hb : (m == a) = false := beq_eq_false_iff_ne.mpr hma
        simpa [eraseKey, List.filter_cons, ha, List.lookup, hb] using ih

theorem lookup_setKey_self (name : String) (v : Nat) (l : List (String × Nat)) :
    (setKey name v l).lookup name = some v := by
  simp [setKey, List.lookup]

theorem lookup_setKey_ne (name m : String) (v : Nat) (l : List (String × Nat))
    (hne : m ≠ name) : (setKey name v l).lookup m = l.lookup m := by
  have hb : (m == name) = false := beq_eq_false_iff_ne.mpr hne
  simp [setKey, List.lookup, hb, lookup_eraseKey_ne name m l hne]

theorem inv_dbEntry (s : State) (name : String) (fresh : Nat) (hinv : inv s) :
    inv (dbEntry s name fresh).1 := by
  unfold dbEntry
  cases hdb : s.databases.lookup name with
  | some h => simpa [hdb] using hinv
  | none =>
    cases hp : s.pendingDatabases.lookup name with
    | some p => simpa [hdb, hp] using hinv
    | none =>
      simp only [hdb, hp]
      intro n
      by_cases hn : n = name
      · subst hn; exact Or.inl hdb
      · rcases hinv n with h | h
        · exact Or.inl h
        · exact Or.inr (by rw [lookup_setKey_ne name n fresh _ hn]; exact h)

theorem inv_dbSettleOk (s : State) (name : String) (h : Nat) (hinv : inv s) :
    inv (dbSettleOk s name h) := by
  intro n
  by_cases hn : n = name
  · subst hn
    right
    exact lookup_eraseKey_self n s.pendingDatabases
  · rcases hinv n with hd | hp
    · left
      simp only [dbSettleOk]
      rw [lookup_setKey_ne name n h s.databases hn]
      exact hd
    · right
      simp only [dbSettleOk]
      rw [lookup_eraseKey_ne name n s.pendingDatabases hn]
      exact hp

theorem inv_dbSettleErr (s : State) (name : String) (hinv : inv s) :
    inv (dbSettleErr s name) := by
  intro n
  by_cases hn : n = name
  · subst hn
    right
    exact lookup_eraseKey_self n s.pendingDatabases
  · rcases hinv n with hd | hp
    · exact Or.inl hd
    · right
      simp only [dbSettleErr]
      rw [lookup_eraseKey_ne name n s.pendingDatabases hn]
      exact hp

/-- Late joiners: while a name is pending and unresolved, every further
entry step leaves the state unchanged, joins the pending promise, and
invokes no construction. -/
theorem runEntries_joined (name : String) (p : Nat) :
    ∀ (k : Nat) (s : State), s.databases.lookup name = none →
      s.pendingDatabases.lookup name = some p →
      runEntries s name p k = (s, List.replicate k (EntryRes.joined p), 0) := by
  intro k
  induction k with
  | zero => intro s _ _; rfl
  | succ k ih =>
    intro s hdb hp
    have hstep : dbEntry s name p = (s, .joined p, 0) := by
      unfold dbEntry; rw [hdb, hp]
    simp [runEntries, hstep, ih s hdb hp, List.replicate]

end Katax.Registry

namespace Katax.Retry

theorem retryGo_eq_ok {R : Type} {tr : Nat → Except String R} {jit : Nat → Fin 100}
    {base timeoutMs : Int} {attempt rem : Nat} {r : R} (htr : tr attempt = .ok r) :
    retryGo tr jit base timeoutMs attempt (rem + 1) = ⟨.ok r, 1, [], [timeoutMs]⟩ := by
  conv_lhs => rw [retryGo]
  rw [htr]

theorem retryGo_eq_err_last {R : Type} {tr : Nat → Except String R} {jit : Nat → Fin 100}
    {base timeoutMs : Int} {attempt : Nat} {e : String} (htr : tr attempt = .error e) :
    retryGo tr jit base timeoutMs attempt 1 = ⟨.error e, 1, [], [timeoutMs]⟩ := by
  conv_lhs => rw [retryGo]
  rw [htr]
  simp

theorem retryGo_eq_err_step {R : Type} {tr : Nat → Except String R} {jit : Nat → Fin 100}
    {base timeoutMs : Int} {attempt rem : Nat} {e : String} (htr : tr attempt = .error e)
    (h : rem ≠ 0) :
    retryGo tr jit base timeoutMs attempt (rem + 1) =
      ⟨(retryGo tr jit base timeoutMs (attempt + 1) rem).result,
       (retryGo tr jit base timeoutMs (attempt + 1) rem).attemptsMade + 1,
       (base * 2 ^ (attempt - 1) + ((jit attempt).val : Int)) ::
         (retryGo tr jit base timeoutMs (attempt + 1) rem).delays,
       timeoutMs :: (retryGo tr jit base timeoutMs (attempt + 1) rem).timeouts⟩ := by
  conv_lhs => rw [retryGo]
  rw [htr]
  simp only [if_neg h]

theorem retryGo_attempts_le {R : Type} (tr : Nat → Except String R) (jit : Nat → Fin 100)
    (base timeoutMs : Int) :
    ∀ (rem attempt : Nat), (retryGo tr jit base timeoutMs attempt rem).attemptsMade ≤ rem := by
  intro rem
  induction rem with
  | zero => intro attempt; simp [retryGo]
  | succ rem ih =>
    intro attempt
    cases htr : tr attempt with
    | ok r =>
      rw [retryGo_eq_ok htr]
      exact Nat.succ_le_succ (Nat.zero_le rem)
    | error e =>
      by_cases h : rem = 0
      · subst h; rw [retryGo_eq_err_last htr]
      · rw [retryGo_eq_err_step htr h]
        exact Nat.succ_le_succ (ih (attempt + 1))

theorem retryGo_delay_formula {R : Type} (tr : Nat → Except String R) (jit : Nat → Fin 100)
    (base timeoutMs : Int) :
    ∀ (rem attempt : Nat), 1 ≤ attempt →
      ∀ (i : Nat), i < (retryGo tr jit base timeoutMs attempt rem).delays.length →
        (retryGo tr jit base timeoutMs attempt rem).delays.get? i =
          some (base * 2 ^ (attempt - 1 + i) + ((jit (attempt + i)).val : Int)) := by
  intro rem
  induction rem with
  | zero => intro attempt _ i hi; simp [retryGo] at hi
  | succ rem ih =>
    intro attempt ha i hi
    cases htr : tr attempt with
    | ok r => rw [retryGo_eq_ok htr] at hi; simp at hi
    | error e =>
      by_cases h : rem = 0
      · subst h; rw [retryGo_eq_err_last htr] at hi; simp at hi
      · rw [retryGo_eq_err_step htr h] at hi ⊢
        cases i with
        | zero => simp
        | succ i =>
          simp only [List.length_cons, Nat.succ_lt_succ_iff] at hi
          have step := ih (attempt + 1) (Nat.le_succ_of_le ha) i hi
          have he : attempt + 1 - 1 + i = attempt - 1 + (i + 1) := by omega
          have he2 : attempt + 1 + i = attempt + (i + 1) := by omega
          rw [he, he2] at step
          simpa using step

theorem retryGo_timeouts {R : Type} (tr : Nat → Except String R) (jit : Nat → Fin 100)
    (base timeoutMs : Int) :
    ∀ (rem attempt : Nat), ∀ x ∈ (retryGo tr jit base timeoutMs attempt rem).timeouts,
      x = timeoutMs := by
  intro rem
  induction rem with
  | zero => intro attempt x hx; simp [retryGo] at hx
  | succ rem ih =>
    intro attempt x hx
    cases htr : tr attempt with
    | ok r => rw [retryGo_eq_ok htr] at hx; simpa using hx
    | error e =>
      by_cases h : rem = 0
      · subst h; rw [retryGo_eq_err_last htr] at hx; simpa using hx
      · rw [retryGo_eq_err_step htr h] at hx
        simp only [List.mem_cons] at hx
        rcases hx with hx | hx
        · exact hx
        · exact ih (attempt + 1) x hx

end Katax.Retry

namespace Katax.Health

theorem any_not_eq_not_all (l : List Bool) : (l.any fun b => !b) = !l.all id := by
  induction l with
  | nil => rfl
  | cons b t ih => simp [List.any_cons, List.all_cons, ih, Bool.not_and]

theorem all_not_eq_not_any (l : List Bool) : (l.all fun b => !b) = !l.any id := by
  induction l with
  | nil => rfl
  | cons b t ih => simp [List.any_cons, List.all_cons, ih, Bool.not_or]

theorem false_of_all_id_any_id (l : List Bool) (h0 : l ≠ [])
    (hall : l.all id = true) (hany : l.any id = false) : False := by
  cases l with
  | nil => exact h0 rfl
  | cons b t =>
    simp [List.all_cons, List.any_cons, id] at hall hany
    rw [hall.1] at hany
    exact absurd hany.1 (by simp)

/-- Normal form of the aggregate rule as the code computes it. -/
theorem check_eq (dbs sockets : List (String × Bool)) (cronOk : Bool) :
    check dbs sockets cronOk =
      if 0 < dbs.length ∧ (dbs.map Prod.snd).any id = false then HStatus.unhealthy
      else if ((dbs.map Prod.snd).all id && (sockets.map Prod.snd).all id && cronOk) = true
        then HStatus.healthy
      else HStatus.degraded := by
  by_cases hL : 0 < dbs.length <;>
    cases hA : (dbs.map Prod.snd).all id <;>
    cases hS : (sockets.map Prod.snd).all id <;>
    cases hC : cronOk <;>
    cases hAny : (dbs.map Prod.snd).any id <;>
    simp [check, any_not_eq_not_all, hL, hA, hS, hC, hAny]

end Katax.Health

namespace Katax.Shutdown

theorem closeErrors_length (service : String) (rs : List (String × Except String Unit)) :
    (closeErrors service rs).length = rs.countP isCloseFailure := by
  induction rs with
  | nil => rfl
  | cons nr t ih =>
    obtain ⟨n, r⟩ := nr
    cases r with
    | ok u => simpa [closeErrors, isCloseFailure, List.countP_cons] using ih
    | error e => simpa [closeErrors, isCloseFailure, List.countP_cons] using ih

end Katax.Shutdown

open Katax

/-- **C2** Cursor-paginated clear: `clear(pattern)` starts at cursor
`"0"`, issues one `SCAN cursor MATCH pattern COUNT 500` per iteration,
issues one batched DEL for exactly the keys of each non-empty page and
none for an empty page, adds their count to the total, and terminates
exactly when the returned next cursor is `"0"` — an empty page mid-scan
continues the loop.  On pages `("1", [k1, k2])` then `("0", [k3])`,
`clear("user:*")` returns 3 and issues exactly those two DELs in order. -/
theorem katax_c2_clear_pagination :
    (Cache.clear none "user:*" [("1", ["k1", "k2"]), ("0", ["k3"])] =
      (.ok 3,
       [RedisCmd.scan "0" "user:*" 500, RedisCmd.del ["k1", "k2"],
        RedisCmd.scan "1" "user:*" 500, RedisCmd.del ["k3"]])) ∧
    (∀ (pattern cursor next : String) (rest : List Cache.ScanPage), next ≠ "0" →
      Cache.clearGo pattern cursor ((next, []) :: rest) =
        ((Cache.clearGo pattern next rest).1,
         RedisCmd.scan cursor pattern 500 :: (Cache.clearGo pattern next rest).2)) ∧
    (∀ (pattern cursor : String) (keys : List String) (rest : List Cache.ScanPage),
      Cache.clearGo pattern cursor (("0", keys) :: rest) =
        (keys.length,
         if keys.isEmpty then [RedisCmd.scan cursor pattern 500]
         else [RedisCmd.scan cursor pattern 500, RedisCmd.del keys])) := by
  refine ⟨rfl, ?_, ?_⟩
  · intro pattern cursor next rest hne
    conv_lhs => rw [Cache.clearGo]
    simp [if_neg hne]
  · intro pattern cursor keys rest
    conv_lhs => rw [Cache.clearGo]
    simp

theorem katax_c2_witness :
    ("5" : String) ≠ "0" ∧
    Cache.clearGo "user:*" "0" [("5", []), ("0", ["k"])] =
      ((Cache.clearGo "user:*" "5" [("0", ["k"])]).1,
       RedisCmd.scan "0" "user:*" 500 :: (Cache.clearGo "user:*" "5" [("0", ["k"])]).2) :=
  ⟨by decide, katax_c2_clear_pagination.2.1 "user:*" "0" "5" [("0", ["k"])] (by decide)⟩

/-- **C3** Production wildcard guard: with the environment flagged
production and pattern exactly `"*"`, `clear` fails immediately with the
safety error and issues zero backend commands, for every backend script;
`clear("user:*")` in production proceeds normally through the scan loop. -/
theorem katax_c3_production_guard (env : Option String) (script : List Cache.ScanPage)
    (henv : Cache.isProdEnv env = true) :
    Cache.clear env "*" script =
      (.error "Cache clear failed: cache.clear(\"*\") is disabled in production for safety",
       []) ∧
    Cache.clear env "user:*" script =
      (.ok (Cache.clearGo "user:*" "0" script).1, (Cache.clearGo "user:*" "0" script).2) := by
  constructor
  · simp [Cache.clear, henv]
  · simp [Cache.clear, henv]

theorem katax_c3_witness :
    Cache.isProdEnv (some "production") = true ∧
    Cache.clear (some "production") "*" [("0", ["a", "b"])] =
      (.error "Cache clear failed: cache.clear(\"*\") is disabled in production for safety",
       []) ∧
    Cache.clear (some "production") "user:*" [("0", ["a", "b"])] =
      (.ok (Cache.clearGo "user:*" "0" [("0", ["a", "b"])]).1,
       (Cache.clearGo "user:*" "0" [("0", ["a", "b"])]).2) :=
  ⟨by decide,
   (katax_c3_production_guard (some "production") [("0", ["a", "b"])] (by decide)).1,
   (katax_c3_production_guard (some "production") [("0", ["a", "b"])] (by decide)).2⟩

/-- **C9** Idempotent release: closing an initialized database service
invokes the adapter close exactly once and clears the state; closing it
again (or closing any uninitialized service) is a no-op that neither
errors nor invokes the adapter close a second time. -/
theorem katax_c9_idempotent_release (s : DbConn.State) (p : Nat) (a2 : Except String Unit)
    (hInit : s.initialized = true) (hPool : s.pool = some p) :
    DbConn.close s (.ok ()) = (.ok (), ⟨false, none⟩, 1) ∧
    DbConn.close (DbConn.close s (.ok ())).2.1 a2 =
      (.ok (), (DbConn.close s (.ok ())).2.1, 0) ∧
    (∀ (t : DbConn.State) (a : Except String Unit), t.initialized = false →
      DbConn.close t a = (.ok (), t, 0)) := by
  have h1 : DbConn.close s (.ok ()) = (.ok (), ⟨false, none⟩, 1) := by
    simp [DbConn.close, hInit, hPool]
  refine ⟨h1, ?_, ?_⟩
  · rw [h1]
    simp [DbConn.close]
  · intro t a ht
    simp [DbConn.close, ht]

theorem katax_c9_witness :
    (DbConn.State.mk true (some 1)).initialized = true ∧
    (DbConn.State.mk true (some 1)).pool = some 1 ∧
    (DbConn.close ⟨true, some 1⟩ (.ok ()) = (.ok (), ⟨false, none⟩, 1) ∧
     DbConn.close (DbConn.close ⟨true, some 1⟩ (.ok ())).2.1 (.ok ()) =
       (.ok (), (DbConn.close ⟨true, some 1⟩ (.ok ())).2.1, 0) ∧
     (∀ (t : DbConn.State) (a : Except String Unit), t.initialized = false →
       DbConn.close t a = (.ok (), t, 0))) :=
  ⟨rfl, rfl, katax_c9_idempotent_release ⟨true, some 1⟩ 1 (.ok ()) rfl rfl⟩

/-- **C10** Empty-batch cache operations are backend no-ops: `delMany []`,
`mget []` and `mset []` return immediately without issuing any backend
command and without an error, whatever the backend would have answered. -/
theorem katax_c10_empty_batch (bdel bmset : Except String Unit)
    (bmget : Except String (List (Option String))) :
    Cache.delMany [] bdel = (.ok (), []) ∧
    Cache.mget [] bmget = (.ok [], []) ∧
    Cache.mset [] bmset = (.ok (), []) :=
  ⟨rfl, rfl, rfl⟩

/-- **C1** Single-flight acquisition: from a state where `name` is
neither resolved nor pending, `k + 1` concurrent `database(config)` calls
issued before the first construction resolves invoke the underlying
construction exactly once, the first caller starts promise `p` and every
other caller joins that same promise `p` (so all receive the identical
handle once `p` settles), the name stays pending and unresolved until the
settle step, settling stores the constructed handle and clears the
pending entry, and the union invariant — no name simultaneously in the
resolved and the pending map — holds at every intermediate instant and
after the settle. -/
theorem katax_c1_single_flight (s : Registry.State) (name : String) (p h : Nat) (k : Nat)
    (hdb : s.databases.lookup name = none)
    (hpend : s.pendingDatabases.lookup name = none)
    (hinv : Registry.inv s) :
    (Registry.runEntries s name p (k + 1)).2.2 = 1 ∧
    (Registry.runEntries s name p (k + 1)).2.1 =
      Registry.EntryRes.started p :: List.replicate k (Registry.EntryRes.joined p) ∧
    (Registry.runEntries s name p (k + 1)).1.databases.lookup name = none ∧
    (Registry.runEntries s name p (k + 1)).1.pendingDatabases.lookup name = some p ∧
    (∀ j, j ≤ k + 1 → Registry.inv (Registry.runEntries s name p j).1) ∧
    (Registry.dbSettleOk (Registry.runEntries s name p (k + 1)).1 name h).databases.lookup
      name = some h ∧
    (Registry.dbSettleOk (Registry.runEntries s name p (k + 1)).1 name
      h).pendingDatabases.lookup name = none ∧
    Registry.inv (Registry.dbSettleOk (Registry.runEntries s name p (k + 1)).1 name h) := by
  have hstep : Registry.dbEntry s name p =
      ({ s with pendingDatabases := Registry.setKey name p s.pendingDatabases },
       .started p, 1) := by
    unfold Registry.dbEntry
    rw [hdb, hpend]
  have hs1db :
      ({ s with pendingDatabases := Registry.setKey name p s.pendingDatabases } :
        Registry.State).databases.lookup name = none := hdb
  have hs1p :
      ({ s with pendingDatabases := Registry.setKey name p s.pendingDatabases } :
        Registry.State).pendingDatabases.lookup name = some p :=
    Registry.lookup_setKey_self name p s.pendingDatabases
  have hs1inv :
      Registry.inv ({ s with pendingDatabases := Registry.setKey name p s.pendingDatabases }) := by
    have := Registry.inv_dbEntry s name p hinv
    rw [hstep] at this
    exact this
  have hrunSucc : ∀ (j : Nat), Registry.runEntries s name p (j + 1) =
      ({ s with pendingDatabases := Registry.setKey name p s.pendingDatabases },
       Registry.EntryRes.started p :: List.replicate j (Registry.EntryRes.joined p), 1) := by
    intro j
    conv_lhs => rw [Registry.runEntries]
    rw [hstep]
    rw [Registry.runEntries_joined name p j _ hs1db hs1p]
    rfl
  have hrun := hrunSucc k
  refine ⟨by rw [hrun], by rw [hrun], by rw [hrun]; exact hs1db, by rw [hrun]; exact hs1p,
    ?_, ?_, ?_, ?_⟩
  · intro j hj
    cases j with
    | zero => exact hinv
    | succ j => rw [hrunSucc j]; exact hs1inv
  · rw [hrun]
    exact Registry.lookup_setKey_self name h _
  · rw [hrun]
    exact Registry.lookup_eraseKey_self name _
  · rw [hrun]
    exact Registry.inv_dbSettleOk _ name h hs1inv

theorem katax_c1_witness :
    (Registry.State.mk [] []).databases.lookup "main" = none ∧
    (Registry.State.mk [] []).pendingDatabases.lookup "main" = none ∧
    Registry.inv (Registry.State.mk [] []) ∧
    ((Registry.runEntries ⟨[], []⟩ "main" 7 (2 + 1)).2.2 = 1 ∧
     (Registry.runEntries ⟨[], []⟩ "main" 7 (2 + 1)).2.1 =
       Registry.EntryRes.started 7 :: List.replicate 2 (Registry.EntryRes.joined 7) ∧
     (Registry.runEntries ⟨[], []⟩ "main" 7 (2 + 1)).1.databases.lookup "main" = none ∧
     (Registry.runEntries ⟨[], []⟩ "main" 7 (2 + 1)).1.pendingDatabases.lookup "main" =
       some 7 ∧
     (∀ j, j ≤ 2 + 1 → Registry.inv (Registry.runEntries ⟨[], []⟩ "main" 7 j).1) ∧
     (Registry.dbSettleOk (Registry.runEntries ⟨[], []⟩ "main" 7 (2 + 1)).1 "main"
       5).databases.lookup "main" = some 5 ∧
     (Registry.dbSettleOk (Registry.runEntries ⟨[], []⟩ "main" 7 (2 + 1)).1 "main"
       5).pendingDatabases.lookup "main" = none ∧
     Registry.inv (Registry.dbSettleOk (Registry.runEntries ⟨[], []⟩ "main" 7 (2 + 1)).1
       "main" 5)) :=
  ⟨rfl, rfl, fun _ => Or.inl rfl,
   katax_c1_single_flight ⟨[], []⟩ "main" 7 5 2 rfl rfl (fun _ => Or.inl rfl)⟩

/-- **C7** Optional-resource downgrade and pending cleanup: when a
construction fails, a configuration with `required === false` yields
`null` while any other configuration yields the wrapped initialization
error; in both the failure and the success settle steps the pending entry
for the name is removed, and after a failure a new call for the same
(still unresolved) name starts a fresh construction instead of reusing
the failed attempt. -/
theorem katax_c7_optional_downgrade (s : Registry.State) (name msg : String)
    (required : Option Bool) (p h : Nat) :
    (required = some false → Registry.dbFailureResult name msg required = .ok none) ∧
    (required ≠ some false → Registry.dbFailureResult name msg required =
      .error ("Database '" ++ name ++ "' initialization failed: " ++ msg)) ∧
    (Registry.dbSettleErr s name).pendingDatabases.lookup name = none ∧
    (Registry.dbSettleOk s name h).pendingDatabases.lookup name = none ∧
    (s.databases.lookup name = none →
      Registry.dbEntry (Registry.dbSettleErr s name) name p =
        ({ databases := s.databases,
           pendingDatabases :=
             Registry.setKey name p (Registry.eraseKey name s.pendingDatabases) },
         .started p, 1)) := by
  refine ⟨?_, ?_, ?_, ?_, ?_⟩
  · intro hreq
    subst hreq
    simp [Registry.dbFailureResult]
  · intro hreq
    have hb : (required == some false) = false := beq_eq_false_iff_ne.mpr hreq
    simp [Registry.dbFailureResult, hb]
  · exact Registry.lookup_eraseKey_self name s.pendingDatabases
  · exact Registry.lookup_eraseKey_self name s.pendingDatabases
  · intro hdb
    have hpe : (Registry.dbSettleErr s name).pendingDatabases.lookup name = none :=
      Registry.lookup_eraseKey_self name s.pendingDatabases
    have hde : (Registry.dbSettleErr s name).databases.lookup name = none := hdb
    unfold Registry.dbEntry
    rw [hde, hpe]
    rfl

theorem katax_c7_witness :
    ((some false : Option Bool) = some false →
      Registry.dbFailureResult "aux" "boom" (some false) = .ok none) ∧
    ((Registry.State.mk [] [("aux", 3)]).databases.lookup "aux" = none →
      Registry.dbEntry (Registry.dbSettleErr ⟨[], [("aux", 3)]⟩ "aux") "aux" 9 =
        ({ databases := [],
           pendingDatabases := Registry.setKey "aux" 9 (Registry.eraseKey "aux" [("aux", 3)]) },
         .started 9, 1)) ∧
    Registry.dbFailureResult "aux" "boom" none =
      .error ("Database '" ++ "aux" ++ "' initialization failed: " ++ "boom") :=
  ⟨(katax_c7_optional_downgrade ⟨[], [("aux", 3)]⟩ "aux" "boom" (some false) 9 0).1,
   fun _ => (katax_c7_optional_downgrade ⟨[], [("aux", 3)]⟩ "aux" "boom" (some false) 9 0).2.2.2.2
     rfl,
   (katax_c7_optional_downgrade ⟨[], [("aux", 3)]⟩ "aux" "boom" none 9 0).2.1 (by decide)⟩

/-- **C4** Retry attempt count and backoff: every run performs at most
`attempts = max(0, retryAttempts) + 1` attempts, which is
`retryAttempts + 1` for any non-negative configured value; a transport
failing twice then succeeding under `retryAttempts = 2` succeeds with
exactly 3 attempts and backoff delays `300, 600`; under
`retryAttempts = 0` a failing transport raises the last error after
exactly 1 attempt with no backoff sleep; and the delay slept after failed
attempt `i + 1` equals `retryBaseDelayMs * 2 ^ i` plus the drawn jitter,
which is always in `[0, 100)`. -/
theorem katax_c4_retry_backoff :
    (∀ (R : Type) (cfg : Retry.Config) (tr : Nat → Except String R) (jit : Nat → Fin 100),
      (Retry.fetchWithRetry cfg tr jit).attemptsMade ≤ Retry.attemptsOf cfg) ∧
    (∀ (cfg : Retry.Config) (k : Int), 0 ≤ k → cfg.retryAttempts = some k →
      Retry.attemptsOf cfg = k.toNat + 1) ∧
    (Retry.fetchWithRetry ⟨some 2, none, none⟩ Retry.trFailTwice Retry.jitZero =
      ⟨.ok "registered", 3, [300, 600], [5000, 5000, 5000]⟩) ∧
    (∀ (R : Type) (tr : Nat → Except String R) (jit : Nat → Fin 100) (e : String),
      tr 1 = .error e →
      Retry.fetchWithRetry ⟨some 0, none, none⟩ tr jit = ⟨.error e, 1, [], [5000]⟩) ∧
    (∀ (R : Type) (cfg : Retry.Config) (tr : Nat → Except String R) (jit : Nat → Fin 100)
        (b : Int), 0 ≤ b → cfg.retryBaseDelayMs = some b →
      ∀ (i : Nat), i < (Retry.fetchWithRetry cfg tr jit).delays.length →
        (Retry.fetchWithRetry cfg tr jit).delays.get? i =
          some (b * 2 ^ i + ((jit (i + 1)).val : Int)) ∧ (jit (i + 1)).val < 100) := by
  refine ⟨?_, ?_, ?_, ?_, ?_⟩
  · intro R cfg tr jit
    exact Retry.retryGo_attempts_le tr jit _ _ (Retry.attemptsOf cfg) 1
  · intro cfg k hk hcfg
    simp [Retry.attemptsOf, hcfg, max_eq_right hk]
  · rfl
  · intro R tr jit e htr
    exact @Retry.retryGo_eq_err_last R tr jit
      (Retry.baseDelayOf ⟨some 0, none, none⟩) (Retry.timeoutOf ⟨some 0, none, none⟩) 1 e htr
  · intro R cfg tr jit b hb hcfg i hi
    have hbase : Retry.baseDelayOf cfg = b := by
      simp [Retry.baseDelayOf, hcfg, max_eq_right hb]
    have step := Retry.retryGo_delay_formula tr jit (Retry.baseDelayOf cfg)
      (Retry.timeoutOf cfg) (Retry.attemptsOf cfg) 1 (le_refl 1) i hi
    have he : 1 - 1 + i = i := by omega
    have he2 : 1 + i = i + 1 := by omega
    rw [he, he2] at step
    refine ⟨?_, (jit (i + 1)).isLt⟩
    rw [← hbase]
    exact step

theorem katax_c4_witness :
    ((0 : Int) ≤ 2 ∧ Retry.attemptsOf ⟨some 2, none, none⟩ = (2 : Int).toNat + 1) ∧
    ((fun (_ : Nat) => (Except.error "down" : Except String Unit)) 1 = .error "down" ∧
     Retry.fetchWithRetry ⟨some 0, none, none⟩
       (fun _ => (.error "down" : Except String Unit)) Retry.jitZero =
       ⟨.error "down", 1, [], [5000]⟩) ∧
    ((0 : Int) ≤ 300 ∧
     0 < (Retry.fetchWithRetry ⟨some 2, some 300, none⟩ Retry.trFailTwice
       Retry.jitZero).delays.length ∧
     (Retry.fetchWithRetry ⟨some 2, some 300, none⟩ Retry.trFailTwice
       Retry.jitZero).delays.get? 0 =
         some (300 * 2 ^ 0 + ((Retry.jitZero 1).val : Int)) ∧
     (Retry.jitZero 1).val < 100) :=
  ⟨⟨by decide, katax_c4_retry_backoff.2.1 ⟨some 2, none, none⟩ 2 (by decide) rfl⟩,
   ⟨rfl, katax_c4_retry_backoff.2.2.2.1 Unit
     (fun _ => (.error "down" : Except String Unit)) Retry.jitZero "down" rfl⟩,
   by
    refine ⟨by decide, by decide, ?_⟩
    exact katax_c4_retry_backoff.2.2.2.2 String ⟨some 2, some 300, none⟩ Retry.trFailTwice
      Retry.jitZero 300 (by decide) rfl 0 (by decide)⟩

/-- **C8** (amended) Per-attempt timeout bound: the cancellation timeout
armed for every attempt of a run equals `max(1000, requestTimeoutMs)`
with the configured `requestTimeoutMs` defaulting to 5000 — not the raw
configured value, which the code clamps from below at 1000. -/
theorem katax_c8_timeout_bound :
    (∀ (R : Type) (cfg : Retry.Config) (tr : Nat → Except String R) (jit : Nat → Fin 100),
      ∀ x ∈ (Retry.fetchWithRetry cfg tr jit).timeouts, x = Retry.timeoutOf cfg) ∧
    (∀ cfg : Retry.Config, Retry.timeoutOf cfg = max 1000 (cfg.requestTimeoutMs.getD 5000)) ∧
    Retry.timeoutOf ⟨none, none, none⟩ = 5000 := by
  refine ⟨?_, fun _ => rfl, by decide⟩
  intro R cfg tr jit x hx
  exact Retry.retryGo_timeouts tr jit _ _ (Retry.attemptsOf cfg) 1 x hx

/-- **C8** counterexample to the claim as stated: with
`requestTimeoutMs = 500` configured, the timeout armed for each of the
three attempts is 1000, not the configured 500. -/
theorem katax_c8_counterexample :
    (Retry.fetchWithRetry ⟨none, none, some 500⟩
      (fun _ => (.error "down" : Except String String)) Retry.jitZero).timeouts =
      [1000, 1000, 1000] ∧ (1000 : Int) ≠ 500 :=
  ⟨rfl, by decide⟩

theorem katax_c8_witness :
    (1000 : Int) ∈ (Retry.fetchWithRetry ⟨none, none, some 500⟩
      (fun _ => (.error "down" : Except String String)) Retry.jitZero).timeouts ∧
    (1000 : Int) = Retry.timeoutOf ⟨none, none, some 500⟩ :=
  ⟨by decide,
   katax_c8_timeout_bound.1 String ⟨none, none, some 500⟩
     (fun _ => (.error "down" : Except String String)) Retry.jitZero 1000 (by decide)⟩

/-- **C5** counterexample to the claim as stated: with one database whose
probe is false and one socket whose probe is true, the resource set is
non-empty and not every probe is false, yet the code reports `unhealthy`
(the claimed rule would give `degraded`): the unhealthy override only
inspects database probes. -/
theorem katax_c5_counterexample :
    Health.check [("a", false)] [("s", true)] true = Health.HStatus.unhealthy ∧
    ((([("a", false)] : List (String × Bool)).map Prod.snd ++
      ([("s", true)] : List (String × Bool)).map Prod.snd).all fun b => !b) = false := by
  exact ⟨by decide, by decide⟩

/-- **C5** (amended) Health aggregate tri-state rule: the aggregate is
`unhealthy` iff the database set is non-empty and every **database** probe
is false (socket probes play no part in this override); `degraded` iff
not unhealthy and some database probe is false, some socket probe is
false, or the cron-job enumeration fails; `healthy` otherwise, including
the empty case — in particular the empty resource set is healthy. -/
theorem katax_c5_health_aggregate (dbs sockets : List (String × Bool)) (cronOk : Bool) :
    (Health.check dbs sockets cronOk = Health.HStatus.unhealthy ↔
      dbs ≠ [] ∧ ((dbs.map Prod.snd).all fun b => !b) = true) ∧
    (Health.check dbs sockets cronOk = Health.HStatus.degraded ↔
      ¬(dbs ≠ [] ∧ ((dbs.map Prod.snd).all fun b => !b) = true) ∧
      (((dbs.map Prod.snd).any fun b => !b) = true ∨
       ((sockets.map Prod.snd).any fun b => !b) = true ∨ cronOk = false)) ∧
    (Health.check dbs sockets cronOk = Health.HStatus.healthy ↔
      (dbs.map Prod.snd).all id = true ∧ (sockets.map Prod.snd).all id = true ∧
        cronOk = true) ∧
    Health.check [] [] true = Health.HStatus.healthy := by
  have hnf := Health.check_eq dbs sockets cronOk
  have hbridge : (0 < dbs.length ∧ (dbs.map Prod.snd).any id = false) ↔
      (dbs ≠ [] ∧ ((dbs.map Prod.snd).all fun b => !b) = true) := by
    rw [Health.all_not_eq_not_any]
    simp [List.length_pos]
  refine ⟨?_, ?_, ?_, by decide⟩
  · rw [hnf]
    by_cases hU : 0 < dbs.length ∧ (dbs.map Prod.snd).any id = false
    · rw [if_pos hU]
      exact iff_of_true rfl (hbridge.mp hU)
    · rw [if_neg hU]
      refine iff_of_false ?_ (fun hr => hU (hbridge.mpr hr))
      split <;> simp
  · rw [hnf]
    by_cases hU : 0 < dbs.length ∧ (dbs.map Prod.snd).any id = false
    · rw [if_pos hU]
      exact iff_of_false (by simp) (fun hr => hr.1 (hbridge.mp hU))
    · rw [if_neg hU]
      cases hHC : ((dbs.map Prod.snd).all id && (sockets.map Prod.snd).all id && cronOk) with
      | true =>
        rw [if_pos rfl]
        obtain ⟨hA, hS, hC⟩ : (dbs.map Prod.snd).all id = true ∧
            (sockets.map Prod.snd).all id = true ∧ cronOk = true := by
          rcases Bool.and_eq_true_iff.mp hHC with ⟨hAS, hC⟩
          rcases Bool.and_eq_true_iff.mp hAS with ⟨hA, hS⟩
          exact ⟨hA, hS, hC⟩
        refine iff_of_false (by simp) ?_
        rintro ⟨-, hbad | hbad | hbad⟩
        · rw [Health.any_not_eq_not_all, hA] at hbad
          exact absurd hbad (by simp)
        · rw [Health.any_not_eq_not_all, hS] at hbad
          exact absurd hbad (by simp)
        · rw [hC] at hbad
          exact absurd hbad (by simp)
      | false =>
        rw [if_neg (by simp)]
        refine iff_of_true rfl ⟨fun hr => hU (hbridge.mpr hr), ?_⟩
        have hsplit : (dbs.map Prod.snd).all id = false ∨
            (sockets.map Prod.snd).all id = false ∨ cronOk = false := by
          rcases Bool.and_eq_false_iff.mp hHC with h | h
          · rcases Bool.and_eq_false_iff.mp h with h2 | h2
            · exact Or.inl h2
            · exact Or.inr (Or.inl h2)
          · exact Or.inr (Or.inr h)
        rcases hsplit with h | h | h
        · exact Or.inl (by rw [Health.any_not_eq_not_all, h]; rfl)
        · exact Or.inr (Or.inl (by rw [Health.any_not_eq_not_all, h]; rfl))
        · exact Or.inr (Or.inr h)
  · rw [hnf]
    by_cases hU : 0 < dbs.length ∧ (dbs.map Prod.snd).any id = false
    · rw [if_pos hU]
      refine iff_of_false (by simp) ?_
      rintro ⟨hA, -, -⟩
      have hne : (dbs.map Prod.snd) ≠ [] := by
        intro hmap
        have : dbs.length = 0 := by
          simpa using congrArg List.length hmap
        omega
      exact Health.false_of_all_id_any_id (dbs.map Prod.snd) hne hA hU.2
    · rw [if_neg hU]
      cases hHC : ((dbs.map Prod.snd).all id && (sockets.map Prod.snd).all id && cronOk) with
      | true =>
        rw [if_pos rfl]
        refine iff_of_true rfl ?_
        rcases Bool.and_eq_true_iff.mp hHC with ⟨hAS, hC⟩
        rcases Bool.and_eq_true_iff.mp hAS with ⟨hA, hS⟩
        exact ⟨hA, hS, hC⟩
      | false =>
        rw [if_neg (by simp)]
        refine iff_of_false (by simp) ?_
        rintro ⟨hA, hS, hC⟩
        rw [hA, hS, hC] at hHC
        exact absurd hHC (by simp)

/-- **C6** Shutdown settles all: for every registry content, every
resolved resource's close is attempted (the `allSettled` fan-out attempts
siblings even when one close rejects), exactly one error entry is
recorded per failed close (plus one if the cron stop throws), the
resolved maps are unconditionally cleared and the cron stop runs, and the
whole operation returns a report rather than raising; on three databases
where the second's close throws, the first and third are still closed,
the map ends empty, and the report lists exactly the one failure. -/
theorem katax_c6_shutdown_settles_all :
    (∀ (dbs sockets : List (String × Except String Unit)) (cronStop : Except String Unit),
      (Shutdown.run dbs sockets cronStop).dbCloseAttempts = dbs.map Prod.fst ∧
      (Shutdown.run dbs sockets cronStop).socketCloseAttempts = sockets.map Prod.fst ∧
      (Shutdown.run dbs sockets cronStop).databasesAfter = [] ∧
      (Shutdown.run dbs sockets cronStop).socketsAfter = [] ∧
      (Shutdown.run dbs sockets cronStop).cronStopAttempted = true ∧
      (Shutdown.run dbs sockets cronStop).errors.length =
        dbs.countP Shutdown.isCloseFailure + sockets.countP Shutdown.isCloseFailure +
          (match cronStop with | .ok _ => 0 | .error _ => 1)) ∧
    Shutdown.run [("a", .ok ()), ("b", .error "boom"), ("c", .ok ())] [] (.ok ()) =
      ⟨["a", "b", "c"], [], [("database", "boom")], [], [], true⟩ := by
  constructor
  · intro dbs sockets cronStop
    refine ⟨rfl, rfl, rfl, rfl, rfl, ?_⟩
    cases cronStop with
    | ok u => simp [Shutdown.run, Shutdown.closeErrors_length, List.length_append]
    | error e =>
      simp [Shutdown.run, Shutdown.closeErrors_length, List.length_append]
      omega
  · rfl
